import Mathlib

/-!
Verification development for the tradeX Trading Decision & Execution Engine.

This file gives a shallow embedding, in Lean 4, of the core of the
repository: the portfolio ledger (`SimulatedBroker` from
`src/simulation/broker.py`), the risk guardrail (`Guardrail` from
`src/security/guardrails.py`), the regime classifier and pattern-matching
forecast (`MedallionEngine` from `src/intelligence/quant_methods.py`),
and the per-symbol consensus decision step of `main.py`.

Python floats are modelled as exact rationals (`ℚ`) except in the
pattern-matching forecast, whose normalisation and Euclidean distance
involve square roots and is therefore modelled over `ℝ`.  A Python
function that can raise an uncaught exception is modelled with an
explicit failure value (`Option`, or a dedicated constructor); the
partial mutations a Python object may retain after an exception escaped
mid-method are not modelled, as no theorem below depends on them.
-/

namespace TradeX

/-- Substring test: `strHas s pat` models Python's `pat in s`. -/
def takeEq : List Char → List Char → Bool
  | [], _ => true
  | _ :: _, [] => false
  | a :: as, b :: bs => a == b && takeEq as bs

/-- `strHas s pat` is true iff `pat` occurs as a contiguous substring of `s`
(Python's `pat in s` on strings). -/
def strHas (s pat : String) : Bool :=
  (List.range (s.toList.length + 1)).any fun i => takeEq pat.toList (s.toList.drop i)

/-- A decision matrix, Python dict from model name to its vote
(`main.py` builds `{"Claude": …, "Medallion": …, "Alpha": …, "Gamma": …}`),
modelled as an association list with unique keys. -/
abbrev DecisionMatrix := List (String × String)

/-- One open position: the per-symbol record stored by
`SimulatedBroker.positions` (`broker.py`). The Python dict holds keys
`qty, avg_price, category, trigger_strategy, decision_matrix, expected_horizon`. -/
structure Position where
  qty : ℚ
  avg_price : ℚ
  category : String
  trigger_strategy : String
  decision_matrix : DecisionMatrix
  expected_horizon : String
deriving Repr, DecidableEq

/-- One trade-history record appended by `SimulatedBroker.execute_trade`.
The wall-clock `timestamp` field of the Python record is omitted: the model
has no clock and no claim concerns it. -/
structure TradeRecord where
  symbol : String
  side : String
  qty : ℚ
  price : ℚ
  result : ℚ
  category : String
  commission : ℚ
  slippage : ℚ
  total_fees : ℚ
  trigger : String
  decision_matrix : DecisionMatrix
deriving Repr, DecidableEq

/-- The ledger state of `SimulatedBroker` (`broker.py`): cash purse,
positions (a Python dict, modelled as an insertion-ordered association
list with unique keys), trade history, and the two fee accumulators.
`daily_value_log` is omitted (touched only by `log_daily_value`, which no
claim concerns). -/
structure SimulatedBroker where
  initial_cash : ℚ
  purse : ℚ
  positions : List (String × Position)
  history : List TradeRecord
  total_commission : ℚ
  total_slippage : ℚ
deriving Repr, DecidableEq

namespace SimulatedBroker

/-- `SimulatedBroker.__init__(initial_purse_nok)`. -/
def init (initial_purse_nok : ℚ) : SimulatedBroker :=
  { initial_cash := initial_purse_nok
    purse := initial_purse_nok
    positions := []
    history := []
    total_commission := 0
    total_slippage := 0 }

/-- Dict write `self.positions[symbol] = pos`: overwrite in place if the
key exists, else append (Python dicts preserve insertion order). -/
def setPos (ps : List (String × Position)) (symbol : String) (pos : Position) :
    List (String × Position) :=
  if (ps.lookup symbol).isNone then ps ++ [(symbol, pos)]
  else ps.map fun kv => if kv.1 == symbol then (symbol, pos) else kv

/-- Dict delete `del self.positions[symbol]`. -/
def delPos (ps : List (String × Position)) (symbol : String) :
    List (String × Position) :=
  ps.filter fun kv => kv.1 != symbol

/-- The expected-horizon assignment inside the buy branch of
`execute_trade`: default `"Mellom (1-4 uker)"`, overridden to
`"Kort (1-5 dager)"` when `"Medallion" in trigger_strategy`, then to
`"Lang (3-6 mnd)"` when `"Claude" in trigger_strategy` (two independent
`if` statements, so the Claude test runs second and wins if both match). -/
def horizonFor (trigger_strategy : String) : String :=
  let horizon := "Mellom (1-4 uker)"
  let horizon := if strHas trigger_strategy "Medallion" then "Kort (1-5 dager)" else horizon
  if strHas trigger_strategy "Claude" then "Lang (3-6 mnd)" else horizon

/-- `SimulatedBroker.execute_trade` (`broker.py`).

Returns `some (newState, flag, message)` for the Python return
`(flag, message)` with the mutated broker, and `none` when the Python
method raises an uncaught exception.  The only raise site is the
average-price division `((pos.qty * pos.avg_price) + cost) / new_qty`
when `new_qty = 0` (a `ZeroDivisionError`, e.g. a buy of quantity 0 for
a symbol not currently held).  The state the Python object would retain
after that escaped exception is not modelled.

Fee rates are the source constants: commission `0.001`, slippage `0.0005`.
Both accumulators are updated before any failure check runs.  A `side`
other than `"buy"`/`"sell"` falls through both branches and only appends
a history record, as in the source. -/
def execute_trade (st : SimulatedBroker) (symbol : String) (quantity price : ℚ)
    (category : String) (side : String) (trigger_strategy : String)
    (decision_matrix : DecisionMatrix) :
    Option (SimulatedBroker × Bool × String) :=
  let cost := quantity * price
  let commission := cost * (1 / 1000)
  let slippage := cost * (5 / 10000)
  let st := { st with
    total_commission := st.total_commission + commission
    total_slippage := st.total_slippage + slippage }
  let total_fees := commission + slippage
  let record : ℚ → TradeRecord := fun result =>
    { symbol := symbol, side := side, qty := quantity, price := price
      result := result, category := category, commission := commission
      slippage := slippage, total_fees := total_fees
      trigger := trigger_strategy, decision_matrix := decision_matrix }
  if side == "buy" then
    let total_cost := cost + total_fees
    if total_cost > st.purse then some (st, false, "Insufficient funds")
    else
      let st := { st with purse := st.purse - total_cost }
      let horizon := horizonFor trigger_strategy
      -- `if symbol not in self.positions: self.positions[symbol] = {qty 0, …}`
      -- followed by `pos = self.positions[symbol]`, merged into one lookup.
      let pos : Position :=
        match st.positions.lookup symbol with
        | some p => p
        | none =>
          { qty := 0, avg_price := 0, category := category
            trigger_strategy := trigger_strategy
            decision_matrix := decision_matrix, expected_horizon := horizon }
      let new_qty := pos.qty + quantity
      if new_qty = 0 then none  -- ZeroDivisionError in the avg-price division
      else
        let pos := { pos with
          avg_price := ((pos.qty * pos.avg_price) + cost) / new_qty
          qty := new_qty }
        let st := { st with positions := setPos st.positions symbol pos }
        some ({ st with history := st.history ++ [record 0] }, true, "Success")
  else if side == "sell" then
    match st.positions.lookup symbol with
    | none => some (st, false, "Insufficient holdings")
    | some pos =>
      if pos.qty < quantity then some (st, false, "Insufficient holdings")
      else
        let realized_gain_loss := (price - pos.avg_price) * quantity - total_fees
        let st := { st with purse := st.purse + (cost - total_fees) }
        let pos := { pos with qty := pos.qty - quantity }
        let st :=
          if pos.qty ≤ (0 : ℚ) then { st with positions := delPos st.positions symbol }
          else { st with positions := setPos st.positions symbol pos }
        some ({ st with history := st.history ++ [record realized_gain_loss] },
              true, "Success")
  else
    some ({ st with history := st.history ++ [record 0] }, true, "Success")

end SimulatedBroker

/-- Which guardrail rule fired.  The source returns explanatory strings
(`"GUARDRAIL: Max drawdown … exceeded"`, `"GUARDRAIL: Trade size …
exceeds … of portfolio limit"`, `"GUARDRAIL: Asset … is on the restricted
list"`, `"Trade approved by Guardrails."`); this inductive names the four
outcomes, in the same order they are produced. -/
inductive GuardReason where
  | maxDrawdownExceeded
  | tradeSizeExceeded
  | restrictedAsset
  | approved
deriving Repr, DecidableEq

/-- The guardrail state (`src/security/guardrails.py`): configured limits,
restricted list, and the running peak portfolio value. -/
structure Guardrail where
  max_drawdown_pct : ℚ
  max_position_size_pct : ℚ
  restricted_assets : List String
  peak_value : ℚ
deriving Repr, DecidableEq

namespace Guardrail

/-- `Guardrail.__init__` defaults: max drawdown 0.10, max position size
0.05, empty restricted list, peak 0. -/
def initDefault : Guardrail :=
  { max_drawdown_pct := 1 / 10
    max_position_size_pct := 1 / 20
    restricted_assets := []
    peak_value := 0 }

/-- `Guardrail.check_trade(portfolio_value, cash, trade_cost, symbol,
current_holdings)`.  Returns the updated guardrail (the peak-tracking
side effect) with the `(allowed, reason)` pair.  The `cash` and
`current_holdings` arguments are accepted and ignored, as in the source. -/
def check_trade (g : Guardrail) (portfolio_value cash trade_cost : ℚ)
    (symbol : String) (current_holdings : ℚ) : Guardrail × Bool × GuardReason :=
  let g := if portfolio_value > g.peak_value then { g with peak_value := portfolio_value } else g
  let current_drawdown :=
    if g.peak_value > 0 then (g.peak_value - portfolio_value) / g.peak_value else 0
  if current_drawdown > g.max_drawdown_pct then
    (g, false, GuardReason.maxDrawdownExceeded)
  else if trade_cost > portfolio_value * g.max_position_size_pct then
    (g, false, GuardReason.tradeSizeExceeded)
  else if symbol ∈ g.restricted_assets then
    (g, false, GuardReason.restrictedAsset)
  else
    (g, true, GuardReason.approved)

/-- The peak-tracking side effect of `check_trade`, in closed form:
`peak = max(peak, portfolio_value)` (spec §4.2 step 1). -/
def peakTracked (g : Guardrail) (portfolio_value : ℚ) : Guardrail :=
  { g with peak_value := max g.peak_value portfolio_value }

/-- The drawdown fraction `check_trade` tests, in closed form:
`(peak − portfolio_value) / peak` against the updated peak (0 if the
peak is 0). -/
def drawdownAfter (g : Guardrail) (portfolio_value : ℚ) : ℚ :=
  if (g.peakTracked portfolio_value).peak_value > 0 then
    ((g.peakTracked portfolio_value).peak_value - portfolio_value)
      / (g.peakTracked portfolio_value).peak_value
  else 0

end Guardrail

/-- `required_votes = 3 if vol_regime in ("HIGH", "EXTREME") else 2`
(`main.py`). -/
def requiredVotes (vol_regime : String) : ℕ :=
  if vol_regime == "HIGH" || vol_regime == "EXTREME" then 3 else 2

/-- `buy_votes = len([v for v in decision_matrix.values() if v == "BUY"])`
(`main.py`). -/
def buyVotes (decision_matrix : DecisionMatrix) : ℕ :=
  ((decision_matrix.map Prod.snd).filter fun v => v == "BUY").length

/-- The trigger-attribution assignment of `main.py`:
`trigger = "Konsensus Flertall"`, overridden by
`if decision_matrix['Medallion'] == "BUY"` and
`elif decision_matrix['Claude'] == "BUY"`. -/
def triggerFor (decision_matrix : DecisionMatrix) : String :=
  if decision_matrix.lookup "Medallion" == some "BUY" then "Medallion Regime-Trigger"
  else if decision_matrix.lookup "Claude" == some "BUY" then "Claude Sentiment-Trigger"
  else "Konsensus Flertall"

/-- The buy condition of `main.py`:
`if buy_votes >= required_votes and symbol not in broker.positions`. -/
def proposesBuy (decision_matrix : DecisionMatrix) (vol_regime : String)
    (broker : SimulatedBroker) (symbol : String) : Bool :=
  requiredVotes vol_regime ≤ buyVotes decision_matrix
    && (broker.positions.lookup symbol).isNone

/-- The per-symbol decision-and-execution step of `main.py`'s cycle loop:
when the buy condition holds, `broker.execute_trade(symbol, 1, price,
category, side='buy', trigger_strategy, decision_matrix)` is invoked
directly — no `Guardrail` is constructed or consulted anywhere in
`main.py`.  `none` propagates an exception from `execute_trade`. -/
def decisionStep (broker : SimulatedBroker) (decision_matrix : DecisionMatrix)
    (vol_regime symbol : String) (price : ℚ) (category : String) :
    Option SimulatedBroker :=
  if proposesBuy decision_matrix vol_regime broker symbol then
    match broker.execute_trade symbol 1 price category "buy"
        (triggerFor decision_matrix) decision_matrix with
    | some (broker', _, _) => some broker'
    | none => none
  else some broker

namespace MedallionEngine

/-- Finiteness of one entry of `np.diff(np.log(prices))`: the return
`log p₂ − log p₁` is a finite float iff both prices are positive (the log
of 0 is `-inf`, the log of a negative price is `nan`, and any difference
involving them is `±inf` or `nan`, all dropped by the
`~isnan & ~isinf` mask in `fit_regime_detection`). -/
def finiteLogReturn (p₁ p₂ : ℚ) : Bool := decide (0 < p₁) && decide (0 < p₂)

/-- Length of the cleaned return series
`returns[~np.isnan(returns) & ~np.isinf(returns)]` for a finite-float
price series. -/
def usableReturnCount (prices : List ℚ) : ℕ :=
  ((prices.zip prices.tail).filter fun pq => finiteLogReturn pq.1 pq.2).length

/-- Outcome of `MedallionEngine.fit_regime_detection`
(`src/intelligence/quant_methods.py`). -/
inductive RegimeOutcome where
  /-- The small-sample fallback
  `return "Stable_Growth", np.zeros(len(prices)-1)`. -/
  | shortCircuit (label : String) (states : List ℚ)
  /-- Control reaches the `hmm.GaussianHMM(...).fit` call; the fitting
  library is an external collaborator and its outcome is not modelled. -/
  | fitsModel
  /-- `np.zeros(len(prices)-1)` raises `ValueError` (negative dimension)
  when the price series is empty. -/
  | valueError
deriving Repr, DecidableEq

/-- `MedallionEngine.fit_regime_detection(prices)`: compute cleaned log
returns; with fewer than 10 of them, short-circuit to
`("Stable_Growth", np.zeros(len(prices)-1))`; otherwise fit the HMM. -/
def fit_regime_detection (prices : List ℚ) : RegimeOutcome :=
  if usableReturnCount prices < 10 then
    if prices.length = 0 then RegimeOutcome.valueError
    else RegimeOutcome.shortCircuit "Stable_Growth" (List.replicate (prices.length - 1) 0)
  else RegimeOutcome.fitsModel

/-!
The pattern-matching forecast `predict_next_move_kernel` normalises
windows by their standard deviation and compares Euclidean distances;
both involve square roots, so it is modelled over `ℝ` with `Real.sqrt`
(hence noncomputable).  Field division by zero in the model is Lean's
junk value 0; the one place NumPy's `nan` semantics differs (a
zero-variance *recent* window, whose `nan` distances make every
`dist < min_dist` comparison false) is modelled by its observable
effect: no match is ever taken and the forecast falls through to `0.0`.
-/

/-- `np.mean` of a list. -/
noncomputable def npMean (l : List ℝ) : ℝ := l.sum / l.length

/-- `np.std` of a list (population standard deviation). -/
noncomputable def npStd (l : List ℝ) : ℝ :=
  Real.sqrt ((l.map fun x => (x - npMean l) ^ 2).sum / l.length)

/-- `(w - np.mean(w)) / np.std(w)`. -/
noncomputable def normalizeWindow (l : List ℝ) : List ℝ :=
  l.map fun x => (x - npMean l) / npStd l

/-- `np.linalg.norm(u - v)`, the Euclidean distance. -/
noncomputable def euclD (u v : List ℝ) : ℝ :=
  Real.sqrt ((u.zip v).map fun p => (p.1 - p.2) ^ 2).sum

/-- `prices[i : i+w]`. -/
def windowAt (prices : List ℝ) (i w : ℕ) : List ℝ := (prices.drop i).take w

/-- `prices[-w:]` (Python slicing: for `w = 0` this is the whole list). -/
def recentWindow (prices : List ℝ) (w : ℕ) : List ℝ :=
  if w = 0 then prices else prices.drop (prices.length - w)

open Classical in
/-- One iteration of the scan loop of `predict_next_move_kernel`:
`if np.std(past_window) == 0: continue`, then
`if dist < min_dist: min_dist, best_match_idx = dist, i`.
`none` is the initial `best_match_idx = -1, min_dist = inf` state, in
which any candidate distance wins the `dist < min_dist` test. -/
noncomputable def scanStep (prices : List ℝ) (window : ℕ) (recentNorm : List ℝ)
    (acc : Option (ℕ × ℝ)) (i : ℕ) : Option (ℕ × ℝ) :=
  if npStd (windowAt prices i window) = 0 then acc
  else
    let d := euclD recentNorm (normalizeWindow (windowAt prices i window))
    match acc with
    | none => some (i, d)
    | some jm => if d < jm.2 then some (i, d) else some jm

/-- The scan loop of `predict_next_move_kernel`:
`for i in range(len(prices) - window * 2)` over `scanStep`. -/
noncomputable def scanBest (prices : List ℝ) (window : ℕ) (recentNorm : List ℝ) :
    Option (ℕ × ℝ) :=
  (List.range (prices.length - window * 2)).foldl (scanStep prices window recentNorm) none

open Classical in
/-- `MedallionEngine.predict_next_move_kernel(prices, window)`
(`src/intelligence/quant_methods.py`). -/
noncomputable def predict_next_move_kernel (prices : List ℝ) (window : ℕ) : ℝ :=
  if prices.length < window * 2 then 0
  else if npStd (recentWindow prices window) = 0 then 0
  else
    match scanBest prices window (normalizeWindow (recentWindow prices window)) with
    | some im =>
      (prices.getD (im.1 + window) 0 - prices.getD (im.1 + window - 1) 0)
        / prices.getD (im.1 + window - 1) 0
    | none => 0

/-- Modelled from the spec's words, for the refinement claim about the
forecast: the set of "earlier non-overlapping windows of equal length" —
start indices `i` whose window `[i, i+W)` lies entirely before the
recent window `[n-W, n)`, i.e. `i + W ≤ n - W`. -/
def specEarlierNonOverlapping (n W i : ℕ) : Prop := i + W ≤ n - W

/-- Modelled from the spec's words: claim C9's asserted characterisation
of the forecast at a given input — with fewer than `2 × W` observations
the forecast is 0, otherwise it equals the realized one-step return
following a minimum-distance window among all earlier non-overlapping
windows of nonzero variance. -/
noncomputable def kernelForecastClaim (prices : List ℝ) (W : ℕ) : Prop :=
  if prices.length < 2 * W then predict_next_move_kernel prices W = 0
  else
    ∃ i, specEarlierNonOverlapping prices.length W i
      ∧ npStd (windowAt prices i W) ≠ 0
      ∧ (∀ j, specEarlierNonOverlapping prices.length W j →
          npStd (windowAt prices j W) ≠ 0 →
          euclD (normalizeWindow (recentWindow prices W)) (normalizeWindow (windowAt prices i W))
            ≤ euclD (normalizeWindow (recentWindow prices W)) (normalizeWindow (windowAt prices j W)))
      ∧ predict_next_move_kernel prices W
          = (prices.getD (i + W) 0 - prices.getD (i + W - 1) 0) / prices.getD (i + W - 1) 0

end MedallionEngine

/-! ### Concrete example objects used in witness scenarios -/

/-- The vote pattern of the spec's consensus example:
two BUY votes, one HOLD, one SELL. -/
def exampleVotes : DecisionMatrix :=
  [("Claude", "BUY"), ("Medallion", "BUY"), ("Alpha", "HOLD"), ("Gamma", "SELL")]

/-- A guardrail with the source's default limits (10 % drawdown, 5 %
position size) whose recorded peak is 100 000. -/
def exampleGuardrail : Guardrail :=
  { max_drawdown_pct := 1 / 10
    max_position_size_pct := 1 / 20
    restricted_assets := []
    peak_value := 100000 }

/-- An open position of 5 units at average price 10. -/
def examplePosition : Position :=
  { qty := 5, avg_price := 10, category := "STOCKS", trigger_strategy := "Manual"
    decision_matrix := [], expected_horizon := "Mellom (1-4 uker)" }

/-- A broker holding `examplePosition` under symbol `"EQNR"`. -/
def exampleSellBroker : SimulatedBroker :=
  { SimulatedBroker.init 1000 with positions := [("EQNR", examplePosition)] }

/-! ### Helper lemmas about the positions dictionary -/

theorem lookup_delPos_self (ps : List (String × Position)) (k : String) :
    (SimulatedBroker.delPos ps k).lookup k = none := by
  induction ps with
  | nil => rfl
  | cons kv t ih =>
    unfold SimulatedBroker.delPos at ih ⊢
    rw [List.filter_cons]
    by_cases h : kv.1 = k
    · have hb : (kv.1 != k) = false := by simp [h]
      rw [hb]
      simpa using ih
    · have hb : (kv.1 != k) = true := by simp [h]
      have hk : (k == kv.1) = false := by
        simp only [beq_eq_false_iff_ne, ne_eq]
        exact fun hh => h hh.symm
      rw [hb]
      simpa [List.lookup, hk] using ih

theorem lookup_append_single (t : List (String × Position)) (k : String) (v : Position)
    (h : t.lookup k = none) : (t ++ [(k, v)]).lookup k = some v := by
  induction t with
  | nil => simp [List.lookup]
  | cons kv t ih =>
    rcases hk : (k == kv.1) with _ | _
    · simp only [List.cons_append, List.lookup, hk] at h ⊢
      exact ih h
    · simp [List.lookup, hk] at h

theorem lookup_map_overwrite (t : List (String × Position)) (k : String) (v : Position)
    (h : (t.lookup k).isSome) :
    (t.map fun kv => if kv.1 == k then (k, v) else kv).lookup k = some v := by
  induction t with
  | nil => simp at h
  | cons kv t ih =>
    by_cases hkv : kv.1 = k
    · rw [List.map_cons, if_pos (by simp [hkv])]
      simp [List.lookup]
    · have hkk : (k == kv.1) = false := by
        simp only [beq_eq_false_iff_ne, ne_eq]
        exact fun hh => hkv hh.symm
      rw [List.map_cons, if_neg (by simp [hkv])]
      simp only [List.lookup, hkk]
      exact ih (by simpa [List.lookup, hkk] using h)

theorem lookup_setPos_self (ps : List (String × Position)) (k : String) (v : Position) :
    (SimulatedBroker.setPos ps k v).lookup k = some v := by
  unfold SimulatedBroker.setPos
  split
  · rename_i hnone
    exact lookup_append_single ps k v (by simpa [Option.isNone_iff_eq_none] using hnone)
  · rename_i hsome
    exact lookup_map_overwrite ps k v (by
      rcases hlk : ps.lookup k with _ | w
      · exact absurd (by simp [hlk]) hsome
      · simp)

/-! ### Claims -/

/-- C4 (code_bug evidence): `execute_trade` does not return a definite
outcome on every input — a buy of quantity 0 for a symbol not currently
held divides by zero in the average-price update (`((0*0)+0.0)/0`, a
`ZeroDivisionError`), modelled by the `none` result. -/
theorem c4_zero_quantity_buy_raises :
    SimulatedBroker.execute_trade (SimulatedBroker.init 20000) "NVDA" 0 100 "STOCKS"
      "buy" "Manual" [] = none := by
  norm_num [SimulatedBroker.execute_trade, SimulatedBroker.init, List.lookup]

/-- C1 (code_bug evidence): `main.py`'s consensus step mutates the ledger
with no prior Guardrail approval.  In a state where `Guardrail.check_trade`
rejects every trade (peak 100 000, portfolio 89 000: an 11 % drawdown),
the decision step still buys: the purse shrinks and a position appears,
because `main.py` never constructs or consults a `Guardrail`. -/
theorem c1_ledger_mutation_without_guardrail_approval :
    (Guardrail.check_trade { Guardrail.initDefault with peak_value := 100000 }
        89000 89000 100 "EQNR" 0).2.1 = false
    ∧ (decisionStep (SimulatedBroker.init 89000) exampleVotes
          "MODERATE" "EQNR" 100 "STOCKS").map SimulatedBroker.purse
        = some (1777997 / 20)
    ∧ ((1777997 : ℚ) / 20) < 89000
    ∧ (decisionStep (SimulatedBroker.init 89000) exampleVotes
          "MODERATE" "EQNR" 100 "STOCKS").map
            (fun b => (b.positions.lookup "EQNR").isSome)
        = some true := by
  refine ⟨?_, ?_, by norm_num, ?_⟩
  · norm_num [Guardrail.check_trade, Guardrail.initDefault]
  · norm_num [decisionStep, proposesBuy, requiredVotes, buyVotes, exampleVotes, triggerFor,
      SimulatedBroker.execute_trade, SimulatedBroker.init, SimulatedBroker.setPos,
      SimulatedBroker.horizonFor, List.lookup]
    simp
  · norm_num [decisionStep, proposesBuy, requiredVotes, buyVotes, exampleVotes, triggerFor,
      SimulatedBroker.execute_trade, SimulatedBroker.init, SimulatedBroker.setPos,
      SimulatedBroker.horizonFor, List.lookup]
    simp [List.lookup]

/-- C2 (counterexample): a buy call whose total cost does not exceed the
cash balance but which neither fails with `InsufficientFunds` nor
succeeds — with quantity 0 and the symbol not held it raises instead
(the zero-quantity division), so "otherwise it succeeds" is false as
stated for every call with side buy. -/
theorem c2_counterexample_zero_quantity_buy :
    ¬ (0 * (100 : ℚ) + 0 * 100 * (1 / 1000) + 0 * 100 * (5 / 10000)
        > (SimulatedBroker.init 20000).purse)
    ∧ SimulatedBroker.execute_trade (SimulatedBroker.init 20000) "AAPL" 0 100 "STOCKS"
        "buy" "Manual" [] = none := by
  exact ⟨by norm_num [SimulatedBroker.init],
    by norm_num [SimulatedBroker.execute_trade, SimulatedBroker.init, List.lookup]⟩

/-- C2 (amended): for every buy call with positive quantity (and any
state whose stored position quantities are non-negative): if
`qty×price + commission + slippage` exceeds the cash balance the call
fails with `InsufficientFunds` and cash is unchanged; otherwise it
succeeds, cash decreases by exactly that total cost, and the resulting
cash is never negative. -/
theorem c2_buy_cash_conservation
    (st : SimulatedBroker) (symbol : String) (quantity price : ℚ)
    (category trigger : String) (dm : DecisionMatrix)
    (hq : 0 < quantity)
    (hpos : ∀ p, st.positions.lookup symbol = some p → 0 ≤ p.qty) :
    (quantity * price + quantity * price * (1 / 1000) + quantity * price * (5 / 10000)
        > st.purse →
      ∃ st', st.execute_trade symbol quantity price category "buy" trigger dm
          = some (st', false, "Insufficient funds") ∧ st'.purse = st.purse) ∧
    (quantity * price + quantity * price * (1 / 1000) + quantity * price * (5 / 10000)
        ≤ st.purse →
      ∃ st', st.execute_trade symbol quantity price category "buy" trigger dm
          = some (st', true, "Success")
        ∧ st'.purse = st.purse
            - (quantity * price + quantity * price * (1 / 1000) + quantity * price * (5 / 10000))
        ∧ 0 ≤ st'.purse) := by
  constructor
  · intro hgt
    unfold SimulatedBroker.execute_trade
    simp only []
    rw [if_pos (by decide : (("buy" == "buy") = true))]
    rw [if_pos (by linarith :
      quantity * price + (quantity * price * (1 / 1000) + quantity * price * (5 / 10000))
        > st.purse)]
    exact ⟨_, rfl, rfl⟩
  · intro hle
    unfold SimulatedBroker.execute_trade
    simp only []
    rw [if_pos (by decide : (("buy" == "buy") = true))]
    rw [if_neg (by push_neg; linarith :
      ¬ quantity * price + (quantity * price * (1 / 1000) + quantity * price * (5 / 10000))
        > st.purse)]
    rcases hlk : List.lookup symbol st.positions with _ | p
    · simp only []
      rw [if_neg (by intro hz; rw [zero_add] at hz; exact (ne_of_gt hq) hz)]
      refine ⟨_, rfl, ?_, ?_⟩
      · simp only []
        ring
      · simp only []
        linarith
    · simp only []
      have hge := hpos p hlk
      rw [if_neg (by intro hz; linarith : ¬ (p.qty + quantity = 0))]
      refine ⟨_, rfl, ?_, ?_⟩
      · simp only []
        ring
      · simp only []
        linarith

/-- Witness for C2 (amended): a concrete successful buy of 1 unit at
price 100 from a cash purse of 20 000. -/
theorem c2_buy_cash_conservation_witness :
    (0 : ℚ) < 1
    ∧ (1 * (100 : ℚ) + 1 * 100 * (1 / 1000) + 1 * 100 * (5 / 10000)
        ≤ (SimulatedBroker.init 20000).purse)
    ∧ (∃ st', (SimulatedBroker.init 20000).execute_trade "EQNR" 1 100 "STOCKS" "buy"
          "Manual" [] = some (st', true, "Success")
        ∧ st'.purse = (SimulatedBroker.init 20000).purse
            - (1 * 100 + 1 * 100 * (1 / 1000) + 1 * 100 * (5 / 10000))
        ∧ 0 ≤ st'.purse) := by
  refine ⟨by norm_num, by norm_num [SimulatedBroker.init], ?_⟩
  exact (c2_buy_cash_conservation (SimulatedBroker.init 20000) "EQNR" 1 100 "STOCKS"
      "Manual" [] (by norm_num)
      (fun p hp => by simp [SimulatedBroker.init] at hp)).2
    (by norm_num [SimulatedBroker.init])

/-- C3: a sell fails with `InsufficientHoldings` iff the symbol is absent
or the held quantity is below the requested quantity; on success the
held quantity becomes `oldQty − qty`, and when that is exactly 0 the
symbol is removed from the positions map (never kept as a zero row). -/
theorem c3_sell_semantics (st : SimulatedBroker) (symbol : String) (quantity price : ℚ)
    (category trigger : String) (dm : DecisionMatrix) :
    ((∃ st', st.execute_trade symbol quantity price category "sell" trigger dm
        = some (st', false, "Insufficient holdings"))
      ↔ st.positions.lookup symbol = none
        ∨ ∃ p, st.positions.lookup symbol = some p ∧ p.qty < quantity) ∧
    (∀ p, st.positions.lookup symbol = some p → ¬ p.qty < quantity →
      ∃ st', st.execute_trade symbol quantity price category "sell" trigger dm
          = some (st', true, "Success")
        ∧ (p.qty - quantity = 0 → st'.positions.lookup symbol = none)
        ∧ (p.qty - quantity ≠ 0 → ∃ p', st'.positions.lookup symbol = some p'
            ∧ p'.qty = p.qty - quantity)) := by
  rcases hlk : List.lookup symbol st.positions with _ | p
  · constructor
    · constructor
      · intro _
        exact Or.inl rfl
      · intro _
        unfold SimulatedBroker.execute_trade
        simp only []
        rw [if_neg (by decide : ¬ (("sell" == "buy") = true)),
          if_pos (by decide : (("sell" == "sell") = true)), hlk]
        exact ⟨_, rfl⟩
    · intro p hp _
      exact absurd hp (by simp)
  · by_cases hlt : p.qty < quantity
    · constructor
      · constructor
        · intro _
          exact Or.inr ⟨p, rfl, hlt⟩
        · intro _
          unfold SimulatedBroker.execute_trade
          simp only []
          rw [if_neg (by decide : ¬ (("sell" == "buy") = true)),
            if_pos (by decide : (("sell" == "sell") = true)), hlk]
          simp only []
          rw [if_pos hlt]
          exact ⟨_, rfl⟩
      · intro p' hp' hnlt
        rw [Option.some.injEq] at hp'
        subst hp'
        exact absurd hlt hnlt
    · constructor
      · constructor
        · rintro ⟨st', heq⟩
          exfalso
          revert heq
          unfold SimulatedBroker.execute_trade
          simp only []
          rw [if_neg (by decide : ¬ (("sell" == "buy") = true)),
            if_pos (by decide : (("sell" == "sell") = true)), hlk]
          simp only []
          rw [if_neg hlt]
          intro heq
          rw [Option.some.injEq, Prod.mk.injEq, Prod.mk.injEq] at heq
          exact Bool.noConfusion heq.2.1
        · rintro (hnone | ⟨p', hp', hlt'⟩)
          · exact absurd hnone (by simp)
          · rw [Option.some.injEq] at hp'
            subst hp'
            exact absurd hlt' hlt
      · intro p' hp' hnlt
        rw [Option.some.injEq] at hp'
        subst hp'
        by_cases hz : p.qty - quantity = 0
        · unfold SimulatedBroker.execute_trade
          simp only []
          rw [if_neg (by decide : ¬ (("sell" == "buy") = true)),
            if_pos (by decide : (("sell" == "sell") = true)), hlk]
          simp only []
          rw [if_neg hlt, if_pos (le_of_eq hz)]
          exact ⟨_, rfl, fun _ => lookup_delPos_self st.positions symbol,
            fun hne => absurd hz hne⟩
        · unfold SimulatedBroker.execute_trade
          simp only []
          rw [if_neg (by decide : ¬ (("sell" == "buy") = true)),
            if_pos (by decide : (("sell" == "sell") = true)), hlk]
          simp only []
          rw [if_neg hlt, if_neg (by
            intro hle
            exact hz (le_antisymm hle (by linarith [not_lt.mp hlt])))]
          exact ⟨_, rfl, fun hzz => absurd hzz hz,
            fun _ => ⟨_, lookup_setPos_self st.positions symbol _, rfl⟩⟩

/-- Witness for C3: selling 2 of the 5 held units succeeds and leaves a
position of 3 units. -/
theorem c3_sell_semantics_witness :
    exampleSellBroker.positions.lookup "EQNR" = some examplePosition
    ∧ ¬ examplePosition.qty < 2
    ∧ (∃ st', exampleSellBroker.execute_trade "EQNR" 2 20 "STOCKS" "sell" "Manual" []
        = some (st', true, "Success")
      ∧ (examplePosition.qty - 2 = 0 → st'.positions.lookup "EQNR" = none)
      ∧ (examplePosition.qty - 2 ≠ 0 → ∃ p', st'.positions.lookup "EQNR" = some p'
          ∧ p'.qty = examplePosition.qty - 2)) := by
  have hl : exampleSellBroker.positions.lookup "EQNR" = some examplePosition := rfl
  have hq : ¬ examplePosition.qty < 2 := by norm_num [examplePosition]
  exact ⟨hl, hq,
    (c3_sell_semantics exampleSellBroker "EQNR" 2 20 "STOCKS" "Manual" []).2
      examplePosition hl hq⟩

/-- C6: `check_trade`'s verdict is decided by the first failing check in
the fixed order drawdown → position sizing → restricted asset, with both
numeric boundaries exclusive (a drawdown of exactly the configured
maximum is accepted, a cost of exactly the position-size limit is
accepted), and the drawdown reason takes priority whenever its condition
holds. -/
theorem c6_guardrail_order_and_boundaries
    (g : Guardrail) (portfolio_value cash trade_cost : ℚ)
    (symbol : String) (current_holdings : ℚ) :
    (g.drawdownAfter portfolio_value > g.max_drawdown_pct →
      g.check_trade portfolio_value cash trade_cost symbol current_holdings
        = (g.peakTracked portfolio_value, false, GuardReason.maxDrawdownExceeded)) ∧
    (g.drawdownAfter portfolio_value ≤ g.max_drawdown_pct →
      trade_cost > portfolio_value * g.max_position_size_pct →
      g.check_trade portfolio_value cash trade_cost symbol current_holdings
        = (g.peakTracked portfolio_value, false, GuardReason.tradeSizeExceeded)) ∧
    (g.drawdownAfter portfolio_value ≤ g.max_drawdown_pct →
      trade_cost ≤ portfolio_value * g.max_position_size_pct →
      symbol ∈ g.restricted_assets →
      g.check_trade portfolio_value cash trade_cost symbol current_holdings
        = (g.peakTracked portfolio_value, false, GuardReason.restrictedAsset)) ∧
    (g.drawdownAfter portfolio_value ≤ g.max_drawdown_pct →
      trade_cost ≤ portfolio_value * g.max_position_size_pct →
      symbol ∉ g.restricted_assets →
      g.check_trade portfolio_value cash trade_cost symbol current_holdings
        = (g.peakTracked portfolio_value, true, GuardReason.approved)) := by
  have hsplit : (if portfolio_value > g.peak_value
        then { g with peak_value := portfolio_value } else g)
      = g.peakTracked portfolio_value := by
    unfold Guardrail.peakTracked
    rcases le_or_lt portfolio_value g.peak_value with h | h
    · rw [if_neg (not_lt.mpr h), max_eq_left h]
    · rw [if_pos h, max_eq_right (le_of_lt h)]
  unfold Guardrail.check_trade
  simp only []
  rw [hsplit]
  refine ⟨fun hdd => ?_, fun hdd hsz => ?_, fun hdd hsz hres => ?_, fun hdd hsz hres => ?_⟩
  · simp only [Guardrail.drawdownAfter, Guardrail.peakTracked] at hdd ⊢
    rw [if_pos hdd]
  · simp only [Guardrail.drawdownAfter, Guardrail.peakTracked] at hdd ⊢
    rw [if_neg (not_lt.mpr hdd), if_pos hsz]
  · simp only [Guardrail.drawdownAfter, Guardrail.peakTracked] at hdd ⊢
    rw [if_neg (not_lt.mpr hdd), if_neg (not_lt.mpr hsz), if_pos hres]
  · simp only [Guardrail.drawdownAfter, Guardrail.peakTracked] at hdd ⊢
    rw [if_neg (not_lt.mpr hdd), if_neg (not_lt.mpr hsz), if_neg hres]

/-- Witness for C6, at the spec's own numbers (peak 100 000, limits 10 %
and 5 %): an 11 % drawdown is rejected with the drawdown reason; exactly
10 % drawdown with a small cost is approved; a cost of exactly 5 % of a
100 000 portfolio is approved; a 6 % cost is rejected with the sizing
reason. -/
theorem c6_guardrail_order_and_boundaries_witness :
    exampleGuardrail.check_trade 89000 89000 100 "EQNR" 0
      = (exampleGuardrail, false, GuardReason.maxDrawdownExceeded)
    ∧ exampleGuardrail.check_trade 90000 90000 100 "EQNR" 0
      = (exampleGuardrail, true, GuardReason.approved)
    ∧ exampleGuardrail.check_trade 100000 100000 5000 "EQNR" 0
      = (exampleGuardrail, true, GuardReason.approved)
    ∧ exampleGuardrail.check_trade 100000 100000 6000 "EQNR" 0
      = (exampleGuardrail, false, GuardReason.tradeSizeExceeded) := by
  have hpk : ∀ pv : ℚ, pv ≤ 100000 → exampleGuardrail.peakTracked pv = exampleGuardrail := by
    intro pv hpv
    unfold Guardrail.peakTracked exampleGuardrail
    rw [max_eq_left hpv]
  refine ⟨?_, ?_, ?_, ?_⟩
  · have h := (c6_guardrail_order_and_boundaries exampleGuardrail 89000 89000 100 "EQNR" 0).1
      (by norm_num [Guardrail.drawdownAfter, Guardrail.peakTracked, exampleGuardrail])
    rwa [hpk 89000 (by norm_num)] at h
  · have h := (c6_guardrail_order_and_boundaries exampleGuardrail 90000 90000 100 "EQNR" 0).2.2.2
      (by norm_num [Guardrail.drawdownAfter, Guardrail.peakTracked, exampleGuardrail])
      (by norm_num [exampleGuardrail]) (by norm_num [exampleGuardrail])
    rwa [hpk 90000 (by norm_num)] at h
  · have h := (c6_guardrail_order_and_boundaries exampleGuardrail 100000 100000 5000 "EQNR" 0).2.2.2
      (by norm_num [Guardrail.drawdownAfter, Guardrail.peakTracked, exampleGuardrail])
      (by norm_num [exampleGuardrail]) (by norm_num [exampleGuardrail])
    rwa [hpk 100000 (by norm_num)] at h
  · have h := (c6_guardrail_order_and_boundaries exampleGuardrail 100000 100000 6000 "EQNR" 0).2.1
      (by norm_num [Guardrail.drawdownAfter, Guardrail.peakTracked, exampleGuardrail])
      (by norm_num [exampleGuardrail])
    rwa [hpk 100000 (by norm_num)] at h

/-- C7: the required BUY quorum is 3 under a HIGH or EXTREME volatility
regime and 2 otherwise, and a buy is proposed iff the BUY tally reaches
the quorum and the symbol has no open position; with votes
BUY/BUY/HOLD/SELL a trade is proposed under quorum 2 (calm regime) and
not under quorum 3 (HIGH regime). -/
theorem c7_quorum_and_proposal (dm : DecisionMatrix) (vol_regime : String)
    (broker : SimulatedBroker) (symbol : String) :
    requiredVotes vol_regime
        = (if vol_regime = "HIGH" ∨ vol_regime = "EXTREME" then 3 else 2) ∧
    (proposesBuy dm vol_regime broker symbol = true
      ↔ requiredVotes vol_regime ≤ buyVotes dm
        ∧ broker.positions.lookup symbol = none) ∧
    buyVotes exampleVotes = 2 ∧
    proposesBuy exampleVotes "MODERATE" (SimulatedBroker.init 100000) "EQNR" = true ∧
    proposesBuy exampleVotes "HIGH" (SimulatedBroker.init 100000) "EQNR" = false := by
  refine ⟨?_, ?_, by decide, ?_, ?_⟩
  · by_cases h1 : vol_regime = "HIGH" <;> by_cases h2 : vol_regime = "EXTREME" <;>
      simp [requiredVotes, h1, h2]
  · simp [proposesBuy, Bool.and_eq_true, decide_eq_true_eq, Option.isNone_iff_eq_none]
  · simp [proposesBuy, requiredVotes, buyVotes, exampleVotes, SimulatedBroker.init, List.lookup]
  · simp [proposesBuy, requiredVotes, buyVotes, exampleVotes, SimulatedBroker.init, List.lookup]

/-- C8: trigger attribution is chosen by priority (regime trigger if the
Medallion vote is BUY, else sentiment trigger if the Claude vote is BUY,
else majority consensus), and the horizon stored on a newly created
position is derived deterministically from that attribution (regime →
short, sentiment → long, default medium). -/
theorem c8_trigger_priority_and_horizon
    (dm : DecisionMatrix) (st : SimulatedBroker) (symbol : String)
    (quantity price : ℚ) (category : String) :
    triggerFor dm
        = (if dm.lookup "Medallion" == some "BUY" then "Medallion Regime-Trigger"
           else if dm.lookup "Claude" == some "BUY" then "Claude Sentiment-Trigger"
           else "Konsensus Flertall") ∧
    SimulatedBroker.horizonFor "Medallion Regime-Trigger" = "Kort (1-5 dager)" ∧
    SimulatedBroker.horizonFor "Claude Sentiment-Trigger" = "Lang (3-6 mnd)" ∧
    SimulatedBroker.horizonFor "Konsensus Flertall" = "Mellom (1-4 uker)" ∧
    (∀ st' msg, st.positions.lookup symbol = none →
      st.execute_trade symbol quantity price category "buy" (triggerFor dm) dm
          = some (st', true, msg) →
      ∃ p, st'.positions.lookup symbol = some p
        ∧ p.expected_horizon = SimulatedBroker.horizonFor (triggerFor dm)
        ∧ p.trigger_strategy = triggerFor dm) := by
  refine ⟨rfl, by decide, by decide, by decide, ?_⟩
  intro st' msg hlk h
  unfold SimulatedBroker.execute_trade at h
  simp only [] at h
  rw [if_pos (by decide : (("buy" == "buy") = true))] at h
  split at h
  · simp at h
  · rw [hlk] at h
    simp only [] at h
    split at h
    · simp at h
    · rw [Option.some.injEq, Prod.mk.injEq, Prod.mk.injEq] at h
      obtain ⟨h1, _, _⟩ := h
      subst h1
      exact ⟨_, lookup_setPos_self st.positions symbol _, rfl, rfl⟩

/-- Witness for C8: executing the consensus buy with votes
BUY/BUY/HOLD/SELL (Medallion BUY, so the regime trigger wins) creates a
position whose stored horizon is the one derived from that trigger. -/
theorem c8_trigger_priority_and_horizon_witness :
    ∃ st', (SimulatedBroker.init 20000).execute_trade "EQNR" 1 100 "STOCKS" "buy"
        (triggerFor exampleVotes) exampleVotes = some (st', true, "Success")
      ∧ ∃ p, st'.positions.lookup "EQNR" = some p
        ∧ p.expected_horizon = SimulatedBroker.horizonFor (triggerFor exampleVotes)
        ∧ p.trigger_strategy = triggerFor exampleVotes := by
  have hex : ∃ st', (SimulatedBroker.init 20000).execute_trade "EQNR" 1 100 "STOCKS" "buy"
      (triggerFor exampleVotes) exampleVotes = some (st', true, "Success") := by
    unfold SimulatedBroker.execute_trade
    simp only []
    rw [if_pos (by decide : (("buy" == "buy") = true))]
    rw [if_neg (by norm_num [SimulatedBroker.init] :
      ¬ (1 : ℚ) * 100 + (1 * 100 * (1 / 1000) + 1 * 100 * (5 / 10000))
        > (SimulatedBroker.init 20000).purse)]
    rw [show List.lookup "EQNR" (SimulatedBroker.init 20000).positions
      = (none : Option Position) from rfl]
    simp only []
    rw [if_neg (by norm_num : ¬ ((0 : ℚ) + 1 = 0))]
    exact ⟨_, rfl⟩
  obtain ⟨st', heq⟩ := hex
  exact ⟨st', heq,
    (c8_trigger_priority_and_horizon exampleVotes (SimulatedBroker.init 20000) "EQNR"
        1 100 "STOCKS").2.2.2.2 st' "Success" rfl heq⟩

/-- C10: every failed `execute_trade` (buy or sell) leaves the purse,
the positions map and the history unchanged, yet still increments the
cumulative commission and slippage accumulators by 0.1 % and 0.05 % of
the attempted notional, because both accumulators are updated before any
failure check runs. -/
theorem c10_failed_trade_fee_accumulators
    (st : SimulatedBroker) (symbol : String) (quantity price : ℚ)
    (category side trigger : String) (dm : DecisionMatrix)
    (st' : SimulatedBroker) (msg : String)
    (h : st.execute_trade symbol quantity price category side trigger dm
        = some (st', false, msg)) :
    st'.purse = st.purse ∧ st'.positions = st.positions ∧ st'.history = st.history
      ∧ st'.total_commission = st.total_commission + quantity * price * (1 / 1000)
      ∧ st'.total_slippage = st.total_slippage + quantity * price * (5 / 10000) := by
  unfold SimulatedBroker.execute_trade at h
  simp only [] at h
  split at h
  · split at h
    · rw [Option.some.injEq, Prod.mk.injEq, Prod.mk.injEq] at h
      obtain ⟨h1, _, _⟩ := h
      subst h1
      refine ⟨rfl, rfl, rfl, by ring, by ring⟩
    · split at h
      · exact absurd h (by simp)
      · rw [Option.some.injEq, Prod.mk.injEq, Prod.mk.injEq] at h
        exact absurd h.2.1 (by simp)
  · split at h
    · split at h
      · rw [Option.some.injEq, Prod.mk.injEq, Prod.mk.injEq] at h
        obtain ⟨h1, _, _⟩ := h
        subst h1
        refine ⟨rfl, rfl, rfl, by ring, by ring⟩
      · split at h
        · rw [Option.some.injEq, Prod.mk.injEq, Prod.mk.injEq] at h
          obtain ⟨h1, _, _⟩ := h
          subst h1
          refine ⟨rfl, rfl, rfl, by ring, by ring⟩
        · rw [Option.some.injEq, Prod.mk.injEq, Prod.mk.injEq] at h
          exact absurd h.2.1 (by simp)
    · rw [Option.some.injEq, Prod.mk.injEq, Prod.mk.injEq] at h
      exact absurd h.2.1 (by simp)

/-- Witness for C10: a rejected buy (1 unit at 100 against a purse of
only 50) leaves cash, positions and history alone but adds 0.1 and 0.05
to the fee accumulators. -/
theorem c10_failed_trade_fee_accumulators_witness :
    ∃ st', (SimulatedBroker.init 50).execute_trade "EQNR" 1 100 "STOCKS" "buy"
        "Manual" [] = some (st', false, "Insufficient funds")
      ∧ st'.purse = (SimulatedBroker.init 50).purse
      ∧ st'.positions = (SimulatedBroker.init 50).positions
      ∧ st'.history = (SimulatedBroker.init 50).history
      ∧ st'.total_commission = (SimulatedBroker.init 50).total_commission + 1 * 100 * (1 / 1000)
      ∧ st'.total_slippage = (SimulatedBroker.init 50).total_slippage + 1 * 100 * (5 / 10000) := by
  have hex : ∃ st', (SimulatedBroker.init 50).execute_trade "EQNR" 1 100 "STOCKS" "buy"
      "Manual" [] = some (st', false, "Insufficient funds") := by
    unfold SimulatedBroker.execute_trade
    simp only []
    rw [if_pos (by decide : (("buy" == "buy") = true))]
    rw [if_pos (by norm_num [SimulatedBroker.init] :
      (1 : ℚ) * 100 + (1 * 100 * (1 / 1000) + 1 * 100 * (5 / 10000))
        > (SimulatedBroker.init 50).purse)]
    exact ⟨_, rfl⟩
  obtain ⟨st', heq⟩ := hex
  obtain ⟨h1, h2, h3, h4, h5⟩ := c10_failed_trade_fee_accumulators
    (SimulatedBroker.init 50) "EQNR" 1 100 "STOCKS" "buy" "Manual" [] st'
    "Insufficient funds" heq
  exact ⟨st', heq, h1, h2, h3, h4, h5⟩

/-- C5 (counterexample): five equal prices give 4 usable returns
(fewer than 10), and the short-circuit result carries a state sequence
of length 4 (`np.zeros(len(prices)-1)`) — not the empty state sequence
the claim asserts. -/
theorem c5_counterexample_nonempty_states :
    MedallionEngine.usableReturnCount [1, 1, 1, 1, 1] < 10
    ∧ MedallionEngine.fit_regime_detection [1, 1, 1, 1, 1]
        = MedallionEngine.RegimeOutcome.shortCircuit "Stable_Growth" [0, 0, 0, 0]
    ∧ ([0, 0, 0, 0] : List ℚ) ≠ [] := by
  have hc : MedallionEngine.usableReturnCount [1, 1, 1, 1, 1] = 4 := by
    norm_num [MedallionEngine.usableReturnCount, MedallionEngine.finiteLogReturn]
  refine ⟨by rw [hc]; norm_num, ?_, by simp⟩
  unfold MedallionEngine.fit_regime_detection
  rw [if_pos (by rw [hc]; norm_num), if_neg (by simp)]
  rfl

/-- C5 (amended): for every nonempty price series with fewer than 10
usable log returns, the classifier short-circuits — without reaching the
fitting library — to the label `Stable_Growth` with an all-zero state
sequence of length `len(prices) − 1`. -/
theorem c5_small_sample_regime (prices : List ℚ)
    (hne : prices ≠ []) (h : MedallionEngine.usableReturnCount prices < 10) :
    MedallionEngine.fit_regime_detection prices
      = MedallionEngine.RegimeOutcome.shortCircuit "Stable_Growth"
          (List.replicate (prices.length - 1) 0) := by
  unfold MedallionEngine.fit_regime_detection
  rw [if_pos h, if_neg (by simpa using hne)]

/-- Witness for C5 (amended), at a concrete five-point series. -/
theorem c5_small_sample_regime_witness :
    ([2, 2, 2, 2, 2] : List ℚ) ≠ []
    ∧ MedallionEngine.usableReturnCount [2, 2, 2, 2, 2] < 10
    ∧ MedallionEngine.fit_regime_detection [2, 2, 2, 2, 2]
        = MedallionEngine.RegimeOutcome.shortCircuit "Stable_Growth"
            (List.replicate (([2, 2, 2, 2, 2] : List ℚ).length - 1) 0) := by
  have hc : MedallionEngine.usableReturnCount [2, 2, 2, 2, 2] < 10 := by
    norm_num [MedallionEngine.usableReturnCount, MedallionEngine.finiteLogReturn]
  exact ⟨by simp, hc, c5_small_sample_regime [2, 2, 2, 2, 2] (by simp) hc⟩


/-! ### The scan loop of the pattern-matching forecast computes a
first-occurring minimum over the scanned, nonzero-variance windows -/

namespace MedallionEngine

theorem scan_foldl_inv (prices : List ℝ) (window : ℕ) (rn : List ℝ)
    (l : List ℕ) : ∀ (S : List ℕ) (acc : Option (ℕ × ℝ)),
    (acc = none → ∀ i ∈ S, npStd (windowAt prices i window) = 0) →
    (∀ j m, acc = some (j, m) →
      j ∈ S ∧ npStd (windowAt prices j window) ≠ 0
        ∧ m = euclD rn (normalizeWindow (windowAt prices j window))
        ∧ (∀ k ∈ S, npStd (windowAt prices k window) ≠ 0 →
            m ≤ euclD rn (normalizeWindow (windowAt prices k window)))) →
    ((l.foldl (scanStep prices window rn) acc = none →
        ∀ i ∈ S ++ l, npStd (windowAt prices i window) = 0)
      ∧ (∀ j m, l.foldl (scanStep prices window rn) acc = some (j, m) →
          j ∈ S ++ l ∧ npStd (windowAt prices j window) ≠ 0
            ∧ m = euclD rn (normalizeWindow (windowAt prices j window))
            ∧ (∀ k ∈ S ++ l, npStd (windowAt prices k window) ≠ 0 →
                m ≤ euclD rn (normalizeWindow (windowAt prices k window))))) := by
  induction l with
  | nil =>
    intro S acc hnone hsome
    constructor
    · intro hres i hi
      rw [List.append_nil] at hi
      exact hnone (by simpa using hres) i hi
    · intro j m hres
      rw [List.append_nil]
      exact hsome j m (by simpa using hres)
  | cons i t ih =>
    intro S acc hnone hsome
    rw [List.foldl_cons, show S ++ i :: t = (S ++ [i]) ++ t by simp]
    apply ih (S ++ [i]) (scanStep prices window rn acc i)
    · -- the stepped accumulator is none only if nothing valid was seen
      unfold scanStep
      by_cases hstd : npStd (windowAt prices i window) = 0
      · rw [if_pos hstd]
        intro hacc k hk
        rcases List.mem_append.mp hk with hk | hk
        · exact hnone hacc k hk
        · rw [List.mem_singleton.mp hk]
          exact hstd
      · rw [if_neg hstd]
        rcases acc with _ | jm
        · intro hacc
          exact absurd hacc (by simp)
        · intro hacc
          exfalso
          simp only [] at hacc
          by_cases hd : euclD rn (normalizeWindow (windowAt prices i window)) < jm.2
          · rw [if_pos hd] at hacc
            exact absurd hacc (by simp)
          · rw [if_neg hd] at hacc
            exact absurd hacc (by simp)
    · -- the stepped accumulator, when some, is a running minimum
      unfold scanStep
      by_cases hstd : npStd (windowAt prices i window) = 0
      · rw [if_pos hstd]
        intro j m hacc
        obtain ⟨h1, h2, h3, h4⟩ := hsome j m hacc
        refine ⟨List.mem_append_left _ h1, h2, h3, ?_⟩
        intro k hk hkstd
        rcases List.mem_append.mp hk with hk | hk
        · exact h4 k hk hkstd
        · rw [List.mem_singleton.mp hk] at hkstd
          exact absurd hstd hkstd
      · rw [if_neg hstd]
        rcases hacc : acc with _ | ⟨j0, m0⟩
        · intro j m hjm
          simp only [Option.some.injEq, Prod.mk.injEq] at hjm
          obtain ⟨rfl, rfl⟩ := hjm
          refine ⟨List.mem_append_right _ (by simp), hstd, rfl, ?_⟩
          intro k hk hkstd
          rcases List.mem_append.mp hk with hk | hk
          · exact absurd (hnone hacc k hk) hkstd
          · rw [List.mem_singleton.mp hk]
        · obtain ⟨hj0S, hj0std, hm0eq, hm0min⟩ := hsome j0 m0 hacc
          intro j m hjm
          simp only [] at hjm
          by_cases hd : euclD rn (normalizeWindow (windowAt prices i window)) < m0
          · rw [if_pos hd] at hjm
            simp only [Option.some.injEq, Prod.mk.injEq] at hjm
            obtain ⟨rfl, rfl⟩ := hjm
            refine ⟨List.mem_append_right _ (by simp), hstd, rfl, ?_⟩
            intro k hk hkstd
            rcases List.mem_append.mp hk with hk | hk
            · exact le_trans (le_of_lt hd) (hm0min k hk hkstd)
            · rw [List.mem_singleton.mp hk]
          · rw [if_neg hd] at hjm
            simp only [Option.some.injEq, Prod.mk.injEq] at hjm
            obtain ⟨rfl, rfl⟩ := hjm
            refine ⟨List.mem_append_left _ hj0S, hj0std, hm0eq, ?_⟩
            intro k hk hkstd
            rcases List.mem_append.mp hk with hk | hk
            · exact hm0min k hk hkstd
            · rw [List.mem_singleton.mp hk]
              exact not_lt.mp hd

end MedallionEngine


namespace MedallionEngine

/-- C9 (amended): with fewer than `2 x W` observations the forecast is
exactly 0; otherwise — when the recent window has nonzero variance and at
least one scanned window does too — the forecast equals the realized
one-step return immediately following a nonzero-variance window of
minimum normalized Euclidean distance among the windows the code scans,
namely those starting at indices `0 <= i < n - 2 x W` (so the window and
its following return both lie strictly before the recent window). -/
theorem c9_kernel_forecast_scanned_minimum (prices : List ℝ) (W : ℕ) :
    (prices.length < 2 * W → predict_next_move_kernel prices W = 0) ∧
    (2 * W ≤ prices.length →
      npStd (recentWindow prices W) ≠ 0 →
      (∃ j, j < prices.length - 2 * W ∧ npStd (windowAt prices j W) ≠ 0) →
      ∃ i, i < prices.length - 2 * W
        ∧ npStd (windowAt prices i W) ≠ 0
        ∧ (∀ j, j < prices.length - 2 * W → npStd (windowAt prices j W) ≠ 0 →
            euclD (normalizeWindow (recentWindow prices W))
                (normalizeWindow (windowAt prices i W))
              ≤ euclD (normalizeWindow (recentWindow prices W))
                (normalizeWindow (windowAt prices j W)))
        ∧ predict_next_move_kernel prices W
            = (prices.getD (i + W) 0 - prices.getD (i + W - 1) 0)
              / prices.getD (i + W - 1) 0) := by
  constructor
  · intro h
    unfold predict_next_move_kernel
    rw [if_pos (by omega : prices.length < W * 2)]
  · intro hlen hrstd hex
    have hinv := scan_foldl_inv prices W (normalizeWindow (recentWindow prices W))
      (List.range (prices.length - W * 2)) [] none
      (fun _ i hi => absurd hi (List.not_mem_nil i))
      (fun j m h => absurd h (by simp))
    rcases hs : scanBest prices W (normalizeWindow (recentWindow prices W)) with _ | im
    · exfalso
      obtain ⟨j, hj, hjstd⟩ := hex
      have hfold : (List.range (prices.length - W * 2)).foldl
          (scanStep prices W (normalizeWindow (recentWindow prices W))) none = none := by
        unfold scanBest at hs
        exact hs
      have := hinv.1 hfold j (by
        rw [List.nil_append, List.mem_range]
        omega)
      exact hjstd this
    · have hfold : (List.range (prices.length - W * 2)).foldl
          (scanStep prices W (normalizeWindow (recentWindow prices W))) none
            = some (im.1, im.2) := by
        unfold scanBest at hs
        rw [hs]
      obtain ⟨him, histd, hmeq, hmin⟩ := hinv.2 im.1 im.2 hfold
      rw [List.nil_append, List.mem_range] at him
      unfold predict_next_move_kernel
      rw [if_neg (by omega : ¬ prices.length < W * 2), if_neg hrstd, hs]
      refine ⟨im.1, by omega, histd, ?_, rfl⟩
      intro j hj hjstd
      rw [← hmeq]
      exact hmin j (by rw [List.nil_append, List.mem_range]; omega) hjstd

theorem npMean_pair (a b : ℝ) : npMean [a, b] = (a + b) / 2 := by
  unfold npMean
  simp only [List.sum_cons, List.sum_nil, List.length_cons, List.length_nil]
  norm_num

theorem npStd_pair (a b : ℝ) : npStd [a, b] = Real.sqrt (((b - a) / 2) ^ 2) := by
  unfold npStd
  rw [npMean_pair]
  simp only [List.map_cons, List.map_nil, List.sum_cons, List.sum_nil, List.length_cons,
    List.length_nil]
  congr 1
  push_cast
  ring

theorem npStdTenNine : npStd [(10 : ℝ), 9] = 1 / 2 := by
  rw [npStd_pair, show ((((9 : ℝ) - 10) / 2) ^ 2) = (1 / 2) ^ 2 by norm_num,
    Real.sqrt_sq (by norm_num : (0 : ℝ) ≤ 1 / 2)]

theorem npStdNineEleven : npStd [(9 : ℝ), 11] = 1 := by
  rw [npStd_pair, show ((((11 : ℝ) - 9) / 2) ^ 2) = 1 ^ 2 by norm_num,
    Real.sqrt_sq (by norm_num : (0 : ℝ) ≤ 1)]

theorem npStdOneTwo : npStd [(1 : ℝ), 2] = 1 / 2 := by
  rw [npStd_pair, show ((((2 : ℝ) - 1) / 2) ^ 2) = (1 / 2) ^ 2 by norm_num,
    Real.sqrt_sq (by norm_num : (0 : ℝ) ≤ 1 / 2)]

theorem normTenNine : normalizeWindow [(10 : ℝ), 9] = [1, -1] := by
  unfold normalizeWindow
  rw [List.map_cons, List.map_cons, List.map_nil, npMean_pair, npStdTenNine]
  norm_num

theorem normNineEleven : normalizeWindow [(9 : ℝ), 11] = [-1, 1] := by
  unfold normalizeWindow
  rw [List.map_cons, List.map_cons, List.map_nil, npMean_pair, npStdNineEleven]
  norm_num

theorem normOneTwo : normalizeWindow [(1 : ℝ), 2] = [-1, 1] := by
  unfold normalizeWindow
  rw [List.map_cons, List.map_cons, List.map_nil, npMean_pair, npStdOneTwo]
  norm_num

theorem euclDSame : euclD [(-1 : ℝ), 1] [-1, 1] = 0 := by
  unfold euclD
  simp only [List.zip_cons_cons, List.zip_nil_right, List.map_cons, List.map_nil,
    List.sum_cons, List.sum_nil]
  norm_num

theorem euclDOpp : 0 < euclD [(-1 : ℝ), 1] [1, -1] := by
  unfold euclD
  simp only [List.zip_cons_cons, List.zip_nil_right, List.map_cons, List.map_nil,
    List.sum_cons, List.sum_nil]
  rw [show ((-1 : ℝ) - 1) ^ 2 + ((1 - -1) ^ 2 + 0) = 8 by norm_num]
  exact Real.sqrt_pos.mpr (by norm_num)

theorem recentWindowExample : recentWindow [(10 : ℝ), 9, 11, 1, 2] 2 = [1, 2] := rfl

theorem windowAtZeroExample : windowAt [(10 : ℝ), 9, 11, 1, 2] 0 2 = [10, 9] := rfl

theorem windowAtOneExample : windowAt [(10 : ℝ), 9, 11, 1, 2] 1 2 = [9, 11] := rfl

theorem predictExampleValue :
    predict_next_move_kernel [(10 : ℝ), 9, 11, 1, 2] 2 = 2 / 9 := by
  have hscan : scanBest [(10 : ℝ), 9, 11, 1, 2] 2
        (normalizeWindow (recentWindow [(10 : ℝ), 9, 11, 1, 2] 2))
      = some (0, euclD (normalizeWindow (recentWindow [(10 : ℝ), 9, 11, 1, 2] 2))
          (normalizeWindow [(10 : ℝ), 9])) := by
    unfold scanBest
    rw [show ([(10 : ℝ), 9, 11, 1, 2] : List ℝ).length - 2 * 2 = 1 by norm_num]
    rw [show List.range 1 = [0] from rfl]
    rw [List.foldl_cons, List.foldl_nil]
    unfold scanStep
    rw [windowAtZeroExample, if_neg (by rw [npStdTenNine]; norm_num)]
  unfold predict_next_move_kernel
  rw [if_neg (by norm_num : ¬ ([(10 : ℝ), 9, 11, 1, 2] : List ℝ).length < 2 * 2)]
  rw [if_neg (by rw [recentWindowExample, npStdOneTwo]; norm_num)]
  rw [hscan]
  simp only []
  norm_num [List.getD_cons_succ, List.getD_cons_zero]

/-- C9 (counterexample): on prices `[10, 9, 11, 1, 2]` with `W = 2` the
claim's window set ("all earlier non-overlapping windows", start indices
`i + W <= n - W`, here `{0, 1}`) is larger than the set the code scans
(`range(n - 2 x W) = {0}`). Window 1 (`[9, 11]`) normalizes identically
to the recent window (distance 0), so the claim demands its following
return `(1 - 11)/11`, but the code returns window 0's following return
`(11 - 9)/9 = 2/9`. -/
theorem c9_counterexample_excluded_window :
    ¬ kernelForecastClaim [(10 : ℝ), 9, 11, 1, 2] 2 := by
  unfold kernelForecastClaim
  rw [if_neg (by norm_num : ¬ ([(10 : ℝ), 9, 11, 1, 2] : List ℝ).length < 2 * 2)]
  rintro ⟨i, hi, hstd, hmin, heq⟩
  unfold specEarlierNonOverlapping at hi
  have hib : i ≤ 1 := by
    simp only [List.length_cons, List.length_nil] at hi
    omega
  interval_cases i
  · have h1 := hmin 1 (by unfold specEarlierNonOverlapping; norm_num)
      (by rw [windowAtOneExample, npStdNineEleven]; norm_num)
    rw [windowAtZeroExample, windowAtOneExample, recentWindowExample,
      normTenNine, normNineEleven, normOneTwo, euclDSame] at h1
    exact absurd h1 (not_le.mpr euclDOpp)
  · rw [predictExampleValue] at heq
    rw [show (1 + 2 : ℕ) = 3 from rfl, show (1 + 2 - 1 : ℕ) = 2 from rfl] at heq
    norm_num [List.getD_cons_succ, List.getD_cons_zero] at heq

/-- Witness for C9 (amended) at the same concrete series: all
hypotheses hold and the minimum-distance characterization applies. -/
theorem c9_kernel_forecast_scanned_minimum_witness :
    2 * 2 ≤ ([(10 : ℝ), 9, 11, 1, 2] : List ℝ).length
    ∧ npStd (recentWindow [(10 : ℝ), 9, 11, 1, 2] 2) ≠ 0
    ∧ (∃ j, j < ([(10 : ℝ), 9, 11, 1, 2] : List ℝ).length - 2 * 2
        ∧ npStd (windowAt [(10 : ℝ), 9, 11, 1, 2] j 2) ≠ 0)
    ∧ (∃ i, i < ([(10 : ℝ), 9, 11, 1, 2] : List ℝ).length - 2 * 2
        ∧ npStd (windowAt [(10 : ℝ), 9, 11, 1, 2] i 2) ≠ 0
        ∧ (∀ j, j < ([(10 : ℝ), 9, 11, 1, 2] : List ℝ).length - 2 * 2 →
            npStd (windowAt [(10 : ℝ), 9, 11, 1, 2] j 2) ≠ 0 →
            euclD (normalizeWindow (recentWindow [(10 : ℝ), 9, 11, 1, 2] 2))
                (normalizeWindow (windowAt [(10 : ℝ), 9, 11, 1, 2] i 2))
              ≤ euclD (normalizeWindow (recentWindow [(10 : ℝ), 9, 11, 1, 2] 2))
                (normalizeWindow (windowAt [(10 : ℝ), 9, 11, 1, 2] j 2)))
        ∧ predict_next_move_kernel [(10 : ℝ), 9, 11, 1, 2] 2
            = (([(10 : ℝ), 9, 11, 1, 2] : List ℝ).getD (i + 2) 0
                - ([(10 : ℝ), 9, 11, 1, 2] : List ℝ).getD (i + 2 - 1) 0)
              / ([(10 : ℝ), 9, 11, 1, 2] : List ℝ).getD (i + 2 - 1) 0) := by
  have h1 : npStd (recentWindow [(10 : ℝ), 9, 11, 1, 2] 2) ≠ 0 := by
    rw [recentWindowExample, npStdOneTwo]
    norm_num
  have h2 : ∃ j, j < ([(10 : ℝ), 9, 11, 1, 2] : List ℝ).length - 2 * 2
      ∧ npStd (windowAt [(10 : ℝ), 9, 11, 1, 2] j 2) ≠ 0 := by
    refine ⟨0, by norm_num, ?_⟩
    rw [windowAtZeroExample, npStdTenNine]
    norm_num
  exact ⟨by norm_num, h1, h2, (c9_kernel_forecast_scanned_minimum [(10 : ℝ), 9, 11, 1, 2] 2).2 (by norm_num) h1 h2⟩

end MedallionEngine

end TradeX
